import Mathlib

/-!
Shallow embedding of the AIFeeder repository (src/AIFeeder.py and src/main.py):
an RSS feed summarization pipeline.  External collaborators (feed parsing,
HTML parsing, the HTTP layer, the Ollama backend) are modelled as oracle
functions / pre-parsed data, exactly at the boundary where the source calls
them; all control flow of the repository's own code is translated directly.
-/

/-- Python truthiness of an `Optional[str]` value: `None` and `""` are falsy. -/
def pyTruthy : Option String → Bool
  | none => false
  | some s => s ≠ ""

/-- Python `a or b` on `Optional[str]` values: `a` if truthy, else `b`. -/
def pyOr (a b : Option String) : Option String :=
  if pyTruthy a then a else b

/-- Python `a or b` where `a : Optional[str]` and `b : str`. -/
def pyOrStr (a : Option String) (b : String) : String :=
  match a with
  | none => b
  | some s => if s = "" then b else s

/-- Python `str.strip()` (and the trimming of matched abstracts): drop
whitespace from both ends.  Implemented by structural recursion over the
character list so that it evaluates inside proofs. -/
def pyStrip (s : String) : String :=
  ⟨((s.data.dropWhile Char.isWhitespace).reverse.dropWhile Char.isWhitespace).reverse⟩

/-- Python `str.split(chr(10))`: split on newline characters, keeping empty
segments, by structural recursion over the character list. -/
def pySplitLinesAux : List Char → List Char → List String
  | [], acc => [⟨acc.reverse⟩]
  | c :: cs, acc =>
    if c = Char.ofNat 10 then ⟨acc.reverse⟩ :: pySplitLinesAux cs []
    else pySplitLinesAux cs (c :: acc)

/-- Python `str.split(chr(10))` over a whole string. -/
def pySplitLines (s : String) : List String :=
  pySplitLinesAux s.data []

namespace AIFeeder

/-- A parsed feed entry as exposed by `feedparser` to `process_feeds`
(src/AIFeeder.py).  Fields the code reads via `entry.get(...)`; `none`
models an absent key. -/
structure Entry where
  id : Option String
  link : Option String
  summary : Option String
  description : Option String
  /-- Field for `entry.get('content', [{}])[0].get('value', '')`, collapsed to one
  optional string: the first content block's value. -/
  contentValue : Option String
  title : Option String
deriving DecidableEq, Repr

/-- A parsed feed: the `feedparser.parse` result that `process_feeds`
inspects — the bozo flag and the entry list. -/
structure Feed where
  bozo : Bool
  entries : List Entry
deriving DecidableEq, Repr

/-- Embeds `entry.get('id') or entry.get('link')` (src/AIFeeder.py line 214). -/
def rawArticleId (e : Entry) : Option String :=
  pyOr e.id e.link

/-- The sentinel string returned by `summarize_article` on failure. -/
def failSentinel : String := "Summary generation failed."

/-- The fixed instruction prompt `RSSSummary.PROMPT`. -/
def PROMPT : String :=
  "请阅读以下文章内容，并提供一个简洁、清晰的总结，覆盖主要观点和关键信息。" ++
  "总结应易于理解，并保持客观性。" ++
  "不要在总结前面或后面添加任何与文章无关的解释，如'下面是对该文章的总结：'。"

/-- The chat payload built by `summarize_article`:
`f"{PROMPT}\n\n文章内容:\n{content}"`. -/
def summarizePrompt (content : String) : String :=
  PROMPT ++ "\n\n文章内容:\n" ++ content

/-- Embeds `summarize_article` (src/AIFeeder.py lines 145-166).  The backend is the
oracle `chat : String → Option String`: `some s` is a response whose
`message.content` is `s`, `none` is any raised error (`ResponseError` or
other exception).  A truthy (non-empty) response is returned as the summary;
an empty response or an error yields the sentinel string. -/
def summarize_article (chat : String → Option String) (content : String) : String :=
  match chat (summarizePrompt content) with
  | some s => if s ≠ "" then s else failSentinel
  | none => failSentinel

/-- The per-article summary dict appended to `summaries`
(src/AIFeeder.py lines 229-234). -/
structure SummaryDict where
  title : String
  link : String
  summary : String
  content : String
deriving DecidableEq, Repr

/-- The feed-native content fallback chain (src/AIFeeder.py lines 220-221):
`entry.get('summary','') or entry.get('description','') or
 entry.get('content',[{}])[0].get('value','') or entry.get('title','')`. -/
def feedContent (e : Entry) : String :=
  pyOrStr e.summary (pyOrStr e.description (pyOrStr e.contentValue (e.title.getD "")))

/-- The resolved content for an entry (src/AIFeeder.py lines 217-223):
the fetched abstract if truthy, else the feed-native fallback.  `fetch`
is the oracle standing for `fetch_article_abstract` applied to the
article id/URL. -/
def resolvedContent (fetch : String → Option String) (e : Entry) (articleId : String) :
    String :=
  match fetch articleId with
  | none => feedContent e
  | some a => if a = "" then feedContent e else a

/-- The entry loop of `process_feeds` for one feed
(src/AIFeeder.py lines 210-238).  Returns the list of
(summary dict, article id) pairs in the order the code appends the dict to
`summaries` and adds the id to `current_processed` (both happen in the same
branch).  `count` is the loop counter; the loop breaks once
`count ≥ cap` (`articles_per_feed`). -/
def processEntries (fetch : String → Option String) (chat : String → Option String)
    (snapshot : List String) (cap : Nat) :
    List Entry → Nat → List (SummaryDict × String)
  | [], _ => []
  | e :: rest, count =>
    if count ≥ cap then []
    else
      match rawArticleId e with
      | none => processEntries fetch chat snapshot cap rest count
      | some aid =>
        if aid = "" then processEntries fetch chat snapshot cap rest count
        else if aid ∈ snapshot then processEntries fetch chat snapshot cap rest count
        else
          let content := resolvedContent fetch e aid
          if content = "" then processEntries fetch chat snapshot cap rest count
          else
            let summary := summarize_article chat content
            if summary ≠ failSentinel then
              (⟨e.title.getD "Untitled", e.link.getD "", summary, content⟩, aid) ::
                processEntries fetch chat snapshot cap rest (count + 1)
            else processEntries fetch chat snapshot cap rest count

/-- The feed loop of `process_feeds` (src/AIFeeder.py lines 204-240):
a bozo feed is abandoned; otherwise its entries are processed with a fresh
`count = 0`; results accumulate across feeds in order. -/
def processFeedList (fetch : String → Option String) (chat : String → Option String)
    (snapshot : List String) (cap : Nat) : List Feed → List (SummaryDict × String)
  | [] => []
  | f :: rest =>
    (if f.bozo then [] else processEntries fetch chat snapshot cap f.entries 0) ++
      processFeedList fetch chat snapshot cap rest

/-- The on-disk processed-articles file.  `present` is `os.path.exists`;
`content` is the JSON parse result when present (`none` = the file's bytes
do not parse as a JSON string array); `readOk` models whether the read I/O
itself succeeds (a read error is caught like a parse error). -/
structure DedupFile where
  present : Bool
  content : Option (List String)
  readOk : Bool
deriving DecidableEq, Repr

/-- Reading and parsing the file body: the part of `_load_processed` inside
the `try` that can raise (src/AIFeeder.py lines 72-74). -/
def readProcessedFile (f : DedupFile) : Except String (List String) :=
  if f.readOk then
    match f.content with
    | some l => Except.ok l
    | none => Except.error "parse failure"
  else Except.error "read failure"

/-- Embeds `_load_processed` (src/AIFeeder.py lines 69-81): missing file → empty
set; any read/parse exception → caught, logged, empty set. -/
def loadProcessed (f : DedupFile) : List String :=
  if f.present then
    match readProcessedFile f with
    | Except.ok l => l
    | Except.error _ => []
  else []

/-- The identifiers a well-formed file actually stores (its JSON array),
independent of whether a read of it succeeds. -/
def storedIds (f : DedupFile) : List String :=
  if f.present then f.content.getD [] else []

/-- Embeds `_save_processed` (src/AIFeeder.py lines 168-179): overwrites the file
with the given identifiers (the write succeeds in this model). -/
def saveProcessed (ids : List String) : DedupFile :=
  { present := true, content := some ids, readOk := true }

/-- The observable outcome of one `process_feeds` run. -/
structure RunResult where
  pairs : List (SummaryDict × String)
  fileAfter : DedupFile
  reportWritten : Bool
deriving Repr

/-- The summaries of a run (`summaries` in the code). -/
def RunResult.summaries (r : RunResult) : List SummaryDict := r.pairs.map Prod.fst

/-- The newly processed identifiers of a run (`current_processed`). -/
def RunResult.committedIds (r : RunResult) : List String := r.pairs.map Prod.snd

/-- One full run: `self.processed_articles` is loaded from the file at init
(src/AIFeeder.py line 34), `process_feeds` runs, and — only when `summaries`
is non-empty — the report is generated and the union
`processed_articles ∪ current_processed` is saved
(src/AIFeeder.py lines 241-246). -/
def runFeeder (fetch : String → Option String) (chat : String → Option String)
    (feeds : List Feed) (cap : Nat) (file : DedupFile) : RunResult :=
  let snapshot := loadProcessed file
  let pairs := processFeedList fetch chat snapshot cap feeds
  if pairs.map Prod.fst ≠ [] then
    { pairs := pairs
      fileAfter := saveProcessed (snapshot ++ (pairs.map Prod.snd).filter (· ∉ snapshot))
      reportWritten := true }
  else
    { pairs := pairs, fileAfter := file, reportWritten := false }

end AIFeeder

/-- Outcome of one `ollama_client.chat` probe call: success, a
`ResponseError` carrying an HTTP status, or any other exception. -/
inductive ProbeOutcome where
  | ok
  | respErr (status : Nat)
  | exc
deriving DecidableEq, Repr

/-- The summarization backend as seen by the model-readiness check:
the outcome of a first probe, whether a pull succeeds, and the outcome
of a probe issued after the pull. -/
structure Backend where
  probe1 : ProbeOutcome
  pullOk : Bool
  probe2 : ProbeOutcome
deriving DecidableEq, Repr

/-- Result of a model-readiness check: whether it returned normally
(`success = false` means an exception reached the caller), and how many
probe (chat) and pull calls were made. -/
structure CheckResult where
  success : Bool
  probes : Nat
  pulls : Nat
deriving DecidableEq, Repr

namespace AIFeeder

/-- Embeds `_check_model_accessible` (src/AIFeeder.py lines 83-100): probe; on a
404 `ResponseError`, pull and re-probe, any exception there re-raised; any
other `ResponseError` re-raised; a non-`ResponseError` exception from the
probe is not caught. -/
def checkModelAccessible (b : Backend) : CheckResult :=
  match b.probe1 with
  | ProbeOutcome.ok => ⟨true, 1, 0⟩
  | ProbeOutcome.respErr status =>
    if status = 404 then
      if b.pullOk then
        match b.probe2 with
        | ProbeOutcome.ok => ⟨true, 2, 1⟩
        | _ => ⟨false, 2, 1⟩
      else ⟨false, 1, 1⟩
    else ⟨false, 1, 0⟩
  | ProbeOutcome.exc => ⟨false, 1, 0⟩

/-- An HTML element as the extraction strategies consume it:
`get_text(strip=True)` of the element.  HTML parsing itself is the
excluded collaborator. -/
structure Tag where
  textStripped : String
deriving DecidableEq, Repr

/-- A `<meta>` element: its `content` attribute (`none` = attribute absent,
read via `.get('content', '')`). -/
structure MetaTag where
  content : Option String
deriving DecidableEq, Repr

/-- The parsed page as the eight finders of `fetch_article_abstract` see it
(src/AIFeeder.py lines 115-124): each field is what the corresponding
BeautifulSoup query returns (`none` = no match). -/
structure Soup where
  abstractTag : Option Tag
  divClassAbstract : Option Tag
  divIdAbstract : Option Tag
  sectionAriaAbstract : Option Tag
  pMentioningAbstract : Option Tag
  /-- Result group 1 of `re.search(r'Abstract\s*[:\-]\s*(.*?)\s*(Introduction|1\.)', str(s), ...)`. -/
  regexAbstractGroup1 : Option String
  metaDescription : Option MetaTag
  ogDescription : Option MetaTag
deriving DecidableEq, Repr

/-- The `abstract_sources` table (src/AIFeeder.py lines 115-124), each
entry combined with the extraction applied to its match in the loop body
(lines 126-134): elements yield `get_text(strip=True)`, the regex yields
`group(1).strip()`, the meta strategies yield `.get('content','').strip()`.
A strategy yields `some` exactly when its finder returns a truthy match. -/
def abstractSources : List (Soup → Option String) :=
  [ fun s => s.abstractTag.map Tag.textStripped
  , fun s => s.divClassAbstract.map Tag.textStripped
  , fun s => s.divIdAbstract.map Tag.textStripped
  , fun s => s.sectionAriaAbstract.map Tag.textStripped
  , fun s => s.pMentioningAbstract.map Tag.textStripped
  , fun s => s.regexAbstractGroup1.map pyStrip
  , fun s => s.metaDescription.map (fun m => pyStrip (m.content.getD ""))
  , fun s => s.ogDescription.map (fun m => pyStrip (m.content.getD "")) ]

/-- The strategy loop of `fetch_article_abstract`
(src/AIFeeder.py lines 126-134): return on the first finder whose result
is truthy; `None` when no finder matches (line 137). -/
def runStrategies (strats : List (Soup → Option String)) (s : Soup) : Option String :=
  match strats with
  | [] => none
  | f :: rest =>
    match f s with
    | some r => some r
    | none => runStrategies rest s

/-- Embeds `fetch_article_abstract` (src/AIFeeder.py lines 102-143) after the
fetch: `page = none` models a request failure / non-success status / parse
error (all caught, returning `None`); otherwise the strategies run. -/
def fetchArticleAbstract (page : Option Soup) : Option String :=
  match page with
  | none => none
  | some s => runStrategies abstractSources s

end AIFeeder

namespace Main

/-- A parsed feed entry as `fetch_valid_articles` (src/main.py) reads it. -/
structure Entry where
  link : Option String
  title : Option String
  summary : Option String
  description : Option String
  contentValue : Option String
deriving DecidableEq, Repr

/-- The article dict built by `fetch_valid_articles` (src/main.py 60-64). -/
structure Article where
  title : String
  link : String
  content : String
deriving DecidableEq, Repr

/-- Embeds `entry.get('link', 'No_URL_available')` (src/main.py line 52). -/
def articleLink (e : Entry) : String :=
  e.link.getD "No_URL_available"

/-- The content fallback chain of `fetch_valid_articles`
(src/main.py lines 54-57): `entry.get('summary') or entry.get('description')
or entry.get('content', [{}])[0].get('value', '') or entry.get('title', '')`. -/
def entryContent (e : Entry) : String :=
  pyOrStr e.summary (pyOrStr e.description (pyOrStr e.contentValue (e.title.getD "")))

/-- Embeds `load_processed_articles` (src/main.py lines 33-39): when the file
exists, a `deque(file, article_limit)` keeps only the LAST `article_limit`
lines; each kept line is stripped. -/
def loadProcessedArticles (fileLines : Option (List String)) (articleLimit : Nat) :
    List String :=
  match fileLines with
  | none => []
  | some lines => (lines.drop (lines.length - articleLimit)).map pyStrip

/-- Embeds `fetch_valid_articles` (src/main.py lines 46-65): the raw entry list is
sliced to the first `article_limit` entries BEFORE any filtering; a sliced
entry is kept when its link is truthy, not in the processed set, and its
content has non-whitespace; `None` is returned when no entry is kept. -/
def fetchValidArticles (entries : List Entry) (articleLimit : Nat)
    (processedArticles : List String) : Option (List Article) :=
  let valid := (entries.take articleLimit).filterMap (fun e =>
    let lnk := articleLink e
    if lnk ≠ "" ∧ lnk ∉ processedArticles then
      let content := entryContent e
      if pyStrip content ≠ "" then some ⟨e.title.getD "Untitled", lnk, content⟩
      else none
    else none)
  if valid ≠ [] then some valid else none

/-- Embeds `ensure_model_available` (src/main.py lines 67-82): probe; on a 404
`ResponseError`, one pull — and NO re-probe; pull failure and other
`ResponseError`s are re-raised; a non-`ResponseError` probe exception is
not caught. -/
def ensureModelAvailable (b : Backend) : CheckResult :=
  match b.probe1 with
  | ProbeOutcome.ok => ⟨true, 1, 0⟩
  | ProbeOutcome.respErr status =>
    if status = 404 then
      if b.pullOk then ⟨true, 1, 1⟩ else ⟨false, 1, 1⟩
    else ⟨false, 1, 0⟩
  | ProbeOutcome.exc => ⟨false, 1, 0⟩

/-- Embeds `'\n'.join(line.strip() for line in summary.split('\n') if line.strip())`
(src/main.py line 117). -/
def joinNonBlankLines (s : String) : String :=
  String.intercalate "\n"
    ((pySplitLines s).filterMap (fun line =>
      let t := pyStrip line
      if t = "" then none else some t))

/-- The user prompt built by `summarize_article` (src/main.py lines 86-106),
a function of the article content. -/
def userPrompt (content : String) : String :=
  "# INSTRUCTION\n    \n    Respond with a summary of the key message of this article:\n\n" ++
  "    # ARTICLE\n    \n    " ++ content ++
  "\n\n    # RULES\n\n    - DO NOT INCLUDE ANYTHING OTHER THAN THE SUMMARY IN YOUR RESPONSE\n" ++
  "    - DO NOT ADD ANY TEXT BEFORE OR AFTER THE SUMMARY\n" ++
  "    - For long content, provide a summary of the article in less than 500 words.\n" ++
  "    - For short content, use the original content as a summary.\n" ++
  "    - Beside summary in English, also provide a title and a summary in Simplified Chinese.\n" ++
  "    \n    # EXAMPLE OUTPUT:\n    **Translated article title in Simplified Chinese**\n" ++
  "        - Content of the summary in English.\n        - Content of the summary in Simplified Chinese.\n    "

/-- Embeds `summarize_article` (src/main.py lines 84-123): on a backend error
returns `None`; on success returns the response with blank lines removed. -/
def summarizeArticle (chat : String → Option String) (a : Article) : Option String :=
  match chat (userPrompt a.content) with
  | none => none
  | some s => some (joinNonBlankLines s)

/-- The observable outcome of one `main()` run (src/main.py lines 125-188). -/
structure MainResult where
  /-- True when `ensure_model_available` failed and `main` returned early. -/
  aborted : Bool
  /-- the markdown summary blocks collected in `summaries`. -/
  summaries : List String
  /-- lines of the processed-articles file after the run. -/
  processedLines : List String
  /-- whether the invalid-feeds file was written. -/
  invalidWritten : Bool
  /-- whether the markdown/html report files were written. -/
  reportWritten : Bool
deriving DecidableEq, Repr

/-- The markdown block appended per summarized article (src/main.py 154). -/
def summaryBlock (a : Article) (summary : String) : String :=
  "## " ++ a.title ++ "\n\n" ++ summary ++ "\n\n[Article Link](" ++ a.link ++ ")\n\n"

/-- The per-article body of `main`'s inner loop (src/main.py lines 150-157),
threading (summaries, processed-file lines, invalid feeds): a truthy summary
appends its markdown block and appends the article link to the
processed-articles file (`save_processed_article`, line 155). -/
def articleStep (chat : String → Option String)
    (st : List String × List String × List String) (a : Article) :
    List String × List String × List String :=
  match summarizeArticle chat a with
  | some summary =>
    if summary ≠ "" then (st.1 ++ [summaryBlock a summary], st.2.1 ++ [a.link], st.2.2)
    else st
  | none => st

/-- The per-feed body of `main`'s loop (src/main.py lines 145-160). -/
def processFeed (chat : String → Option String) (processedSnapshot : List String)
    (articleLimit : Nat) (entries : List Entry)
    (acc : List String × List String × List String) :
    List String × List String × List String :=
  match fetchValidArticles entries articleLimit processedSnapshot with
  | some articles => articles.foldl (articleStep chat) acc
  | none => (acc.1, acc.2.1, acc.2.2 ++ ["invalid"])

/-- Embeds `main` (src/main.py lines 125-191): ensure the model (abort on failure,
before any feed is read); loop over feeds filtering against the
`load_processed_articles` snapshot; then — unconditionally — write the
invalid-feeds file and the markdown and html report files. -/
def mainRun (b : Backend) (chat : String → Option String) (feeds : List (List Entry))
    (articleLimit : Nat) (processedFile : Option (List String)) : MainResult :=
  if (ensureModelAvailable b).success = false then
    { aborted := true, summaries := [],
      processedLines := (processedFile.getD []), invalidWritten := false,
      reportWritten := false }
  else
    let snapshot := loadProcessedArticles processedFile articleLimit
    let init : List String × List String × List String :=
      ([], processedFile.getD [], [])
    let final := feeds.foldl
      (fun acc entries => processFeed chat snapshot articleLimit entries acc) init
    { aborted := false, summaries := final.1,
      processedLines := final.2.1, invalidWritten := true,
      reportWritten := true }

end Main

namespace AIFeeder

/-- Eligibility of an entry against the dedup snapshot, read off the guards
of the entry loop (src/AIFeeder.py lines 214-215): a truthy article id that
is not in the snapshot. -/
def eligibleEntry (snapshot : List String) (e : Entry) : Bool :=
  match rawArticleId e with
  | none => false
  | some aid => if aid = "" then false else if aid ∈ snapshot then false else true

/-- The (summary dict, article id) pair an eligible entry yields when its
resolution and summarization succeed (the success branch of the entry
loop, src/AIFeeder.py lines 229-235). -/
def entryResult (fetch : String → Option String) (chat : String → Option String)
    (e : Entry) : SummaryDict × String :=
  let aid := (rawArticleId e).getD ""
  let content := resolvedContent fetch e aid
  (⟨e.title.getD "Untitled", e.link.getD "", summarize_article chat content, content⟩, aid)

/-- Whether an eligible entry succeeds end to end: non-empty resolved
content and a non-sentinel summary. -/
def entrySucceeds (fetch : String → Option String) (chat : String → Option String)
    (e : Entry) : Prop :=
  resolvedContent fetch e ((rawArticleId e).getD "") ≠ "" ∧
    summarize_article chat (resolvedContent fetch e ((rawArticleId e).getD "")) ≠ failSentinel

instance (fetch chat : String → Option String) (e : Entry) :
    Decidable (entrySucceeds fetch chat e) := by
  unfold entrySucceeds; infer_instance

/-- Modelled from the claim wording for C6 (spec section 4.2): the strategy
loop as the spec describes it, where a strategy whose match is empty after
trimming is skipped in favour of later strategies.  To be compared with
`runStrategies abstractSources`, which embeds the code. -/
def extractAbstractSpecSkipEmpty (s : Soup) : Option String :=
  abstractSources.findSome? (fun f =>
    match f s with
    | some t => if pyStrip t = "" then none else some t
    | none => none)

end AIFeeder

namespace Main

/-- Eligibility of a sliced entry in `fetch_valid_articles`
(src/main.py lines 52-59): truthy link outside the processed set and
content with non-whitespace. -/
def eligibleEntry (processedArticles : List String) (e : Entry) : Bool :=
  if articleLink e ≠ "" ∧ articleLink e ∉ processedArticles then
    decide (pyStrip (entryContent e) ≠ "")
  else false

/-- The article dict an eligible entry yields (src/main.py lines 60-64). -/
def mkArticle (e : Entry) : Article :=
  ⟨e.title.getD "Untitled", articleLink e, entryContent e⟩

/-- Modelled from the claim wording for C3 (spec section 4.4): filter the
whole entry list against the dedup snapshot first, then take the first
`articleLimit` eligible entries.  To be compared with `fetchValidArticles`,
which embeds the code (slice first, then filter). -/
def fetchValidArticlesSpecFilterFirst (entries : List Entry) (articleLimit : Nat)
    (processedArticles : List String) : List Article :=
  ((entries.filter (eligibleEntry processedArticles)).take articleLimit).map mkArticle

end Main

namespace AIFeeder

theorem processEntries_cons (fetch chat : String → Option String)
    (snapshot : List String) (cap : Nat) (e : Entry) (rest : List Entry) (count : Nat) :
    processEntries fetch chat snapshot cap (e :: rest) count =
      if count ≥ cap then []
      else
        match rawArticleId e with
        | none => processEntries fetch chat snapshot cap rest count
        | some aid =>
          if aid = "" then processEntries fetch chat snapshot cap rest count
          else if aid ∈ snapshot then processEntries fetch chat snapshot cap rest count
          else
            let content := resolvedContent fetch e aid
            if content = "" then processEntries fetch chat snapshot cap rest count
            else
              let summary := summarize_article chat content
              if summary ≠ failSentinel then
                (⟨e.title.getD "Untitled", e.link.getD "", summary, content⟩, aid) ::
                  processEntries fetch chat snapshot cap rest (count + 1)
              else processEntries fetch chat snapshot cap rest count := rfl

/-- Every identifier recorded by the entry loop was absent from the dedup
snapshot. -/
theorem processEntries_snd_not_mem (fetch chat : String → Option String)
    (snapshot : List String) (cap : Nat) :
    ∀ (entries : List Entry) (count : Nat) (p : SummaryDict × String),
      p ∈ processEntries fetch chat snapshot cap entries count → p.2 ∉ snapshot := by
  intro entries
  induction entries with
  | nil => intro count p hp; simp [processEntries] at hp
  | cons e rest ih =>
    intro count p hp
    rw [processEntries_cons] at hp
    split at hp
    · simp at hp
    · split at hp
      · exact ih _ _ hp
      · rename_i aid _
        split at hp
        · exact ih _ _ hp
        · split at hp
          · exact ih _ _ hp
          · rename_i hnotmem
            simp only [] at hp
            split at hp
            · exact ih _ _ hp
            · split at hp
              · rcases List.mem_cons.mp hp with h | h
                · subst h; exact hnotmem
                · exact ih _ _ h
              · exact ih _ _ hp

/-- Every identifier recorded across the feed loop was absent from the
dedup snapshot. -/
theorem processFeedList_snd_not_mem (fetch chat : String → Option String)
    (snapshot : List String) (cap : Nat) :
    ∀ (feeds : List Feed) (p : SummaryDict × String),
      p ∈ processFeedList fetch chat snapshot cap feeds → p.2 ∉ snapshot := by
  intro feeds
  induction feeds with
  | nil => intro p hp; simp [processFeedList] at hp
  | cons f rest ih =>
    intro p hp
    rw [processFeedList] at hp
    rcases List.mem_append.mp hp with h | h
    · split at h
      · simp at h
      · exact processEntries_snd_not_mem fetch chat snapshot cap f.entries 0 p h
    · exact ih p h

/-- The entry loop emits at most `cap - count` results. -/
theorem processEntries_length_le (fetch chat : String → Option String)
    (snapshot : List String) (cap : Nat) :
    ∀ (entries : List Entry) (count : Nat),
      (processEntries fetch chat snapshot cap entries count).length ≤ cap - count := by
  intro entries
  induction entries with
  | nil => intro count; simp [processEntries]
  | cons e rest ih =>
    intro count
    rw [processEntries_cons]
    split
    · simp
    · rename_i hlt
      split
      · exact ih count
      · split
        · exact ih count
        · split
          · exact ih count
          · simp only []
            split
            · exact ih count
            · split
              · have h1 := ih (count + 1)
                simp only [List.length_cons]
                omega
              · exact ih count

/-- When every eligible entry resolves and summarizes successfully, the
entry loop yields exactly the first `cap - count` eligible entries in feed
order, mapped to their results. -/
theorem processEntries_eq_filter_take (fetch chat : String → Option String)
    (snapshot : List String) (cap : Nat) :
    ∀ (entries : List Entry),
      (∀ e ∈ entries, eligibleEntry snapshot e = true → entrySucceeds fetch chat e) →
      ∀ (count : Nat),
      processEntries fetch chat snapshot cap entries count =
        ((entries.filter (eligibleEntry snapshot)).take (cap - count)).map
          (entryResult fetch chat) := by
  intro entries
  induction entries with
  | nil => intro _ count; simp [processEntries]
  | cons e rest ih =>
    intro hall count
    have hrest : ∀ e' ∈ rest, eligibleEntry snapshot e' = true →
        entrySucceeds fetch chat e' :=
      fun e' he' => hall e' (List.mem_cons_of_mem _ he')
    rw [processEntries_cons]
    by_cases hcap : count ≥ cap
    · have hz : cap - count = 0 := by omega
      simp [hcap, hz]
    · simp only [if_neg hcap]
      cases haid : rawArticleId e with
      | none =>
        have hel : ¬ eligibleEntry snapshot e = true := by
          simp [eligibleEntry, haid]
        rw [List.filter_cons_of_neg hel]
        exact ih hrest count
      | some aid =>
        simp only []
        by_cases hemp : aid = ""
        · have hel : ¬ eligibleEntry snapshot e = true := by
            simp [eligibleEntry, haid, hemp]
          rw [if_pos hemp, List.filter_cons_of_neg hel]
          exact ih hrest count
        · by_cases hmem : aid ∈ snapshot
          · have hel : ¬ eligibleEntry snapshot e = true := by
              simp [eligibleEntry, haid, hemp, hmem]
            rw [if_neg hemp, if_pos hmem, List.filter_cons_of_neg hel]
            exact ih hrest count
          · have hel : eligibleEntry snapshot e = true := by
              simp [eligibleEntry, haid, hemp, hmem]
            have hsucc := hall e (List.mem_cons_self e rest) hel
            have haidD : (rawArticleId e).getD "" = aid := by rw [haid]; rfl
            rcases hsucc with ⟨hcont, hsum⟩
            rw [haidD] at hcont hsum
            rw [if_neg hemp, if_neg hmem]
            simp only [if_neg hcont, if_pos hsum]
            rw [List.filter_cons_of_pos hel]
            obtain ⟨k, hk⟩ : ∃ k, cap - count = k + 1 := ⟨cap - count - 1, by omega⟩
            rw [hk, List.take_succ_cons, List.map_cons]
            have hkk : cap - (count + 1) = k := by omega
            rw [ih hrest (count + 1), hkk]
            simp [entryResult, haid]

/-- If no entry of the list is both eligible and successful, the entry loop
yields nothing. -/
theorem processEntries_eq_nil_of_none_succeeds (fetch chat : String → Option String)
    (snapshot : List String) (cap : Nat) :
    ∀ (entries : List Entry),
      (∀ e ∈ entries, eligibleEntry snapshot e = true → ¬ entrySucceeds fetch chat e) →
      ∀ (count : Nat),
      processEntries fetch chat snapshot cap entries count = [] := by
  intro entries
  induction entries with
  | nil => intro _ count; simp [processEntries]
  | cons e rest ih =>
    intro hall count
    have hrest : ∀ e' ∈ rest, eligibleEntry snapshot e' = true →
        ¬ entrySucceeds fetch chat e' :=
      fun e' he' => hall e' (List.mem_cons_of_mem _ he')
    rw [processEntries_cons]
    by_cases hcap : count ≥ cap
    · simp [hcap]
    · simp only [if_neg hcap]
      cases haid : rawArticleId e with
      | none => exact ih hrest count
      | some aid =>
        simp only []
        by_cases hemp : aid = ""
        · rw [if_pos hemp]; exact ih hrest count
        · by_cases hmem : aid ∈ snapshot
          · rw [if_neg hemp, if_pos hmem]; exact ih hrest count
          · have hel : eligibleEntry snapshot e = true := by
              simp [eligibleEntry, haid, hemp, hmem]
            have hfail := hall e (List.mem_cons_self e rest) hel
            have haidD : (rawArticleId e).getD "" = aid := by rw [haid]; rfl
            rw [if_neg hemp, if_neg hmem]
            by_cases hcont : resolvedContent fetch e aid = ""
            · rw [if_pos hcont]; exact ih hrest count
            · rw [if_neg hcont]
              by_cases hsum : summarize_article chat (resolvedContent fetch e aid) ≠
                  failSentinel
              · exfalso
                exact hfail ⟨by rwa [haidD], by rwa [haidD]⟩
              · rw [if_neg hsum]; exact ih hrest count

/-- When a feed's whole entry list fits under the cap, every eligible,
successful entry's identifier is recorded by the entry loop. -/
theorem processEntries_covers (fetch chat : String → Option String)
    (snapshot : List String) (cap : Nat) :
    ∀ (entries : List Entry) (count : Nat), count + entries.length ≤ cap →
      ∀ e ∈ entries, eligibleEntry snapshot e = true → entrySucceeds fetch chat e →
      ((rawArticleId e).getD "") ∈
        (processEntries fetch chat snapshot cap entries count).map Prod.snd := by
  intro entries
  induction entries with
  | nil => intro count _ e he; simp at he
  | cons e' rest ih =>
    intro count hlen e he hel hsucc
    have hcap : ¬ count ≥ cap := by
      simp only [List.length_cons] at hlen; omega
    rw [processEntries_cons]
    rw [if_neg hcap]
    rcases List.mem_cons.mp he with heq | hmem
    · subst heq
      cases haid : rawArticleId e with
      | none => simp [eligibleEntry, haid] at hel
      | some aid =>
        simp only []
        have haidD : (rawArticleId e).getD "" = aid := by rw [haid]; rfl
        have hemp : ¬ aid = "" := by
          intro h; simp [eligibleEntry, haid, h] at hel
        have hmem' : ¬ aid ∈ snapshot := by
          intro h; simp [eligibleEntry, haid, hemp, h] at hel
        rcases hsucc with ⟨hcont, hsum⟩
        rw [haidD] at hcont hsum
        rw [if_neg hemp, if_neg hmem']
        simp only [if_neg hcont, if_pos hsum]
        simp
    · have hlen' : count + rest.length ≤ cap := by
        simp only [List.length_cons] at hlen; omega
      cases haid : rawArticleId e' with
      | none => exact ih count hlen' e hmem hel hsucc
      | some aid =>
        simp only []
        by_cases hemp : aid = ""
        · rw [if_pos hemp]; exact ih count hlen' e hmem hel hsucc
        · by_cases hmem' : aid ∈ snapshot
          · rw [if_neg hemp, if_pos hmem']; exact ih count hlen' e hmem hel hsucc
          · rw [if_neg hemp, if_neg hmem']
            by_cases hcont : resolvedContent fetch e' aid = ""
            · rw [if_pos hcont]; exact ih count hlen' e hmem hel hsucc
            · rw [if_neg hcont]
              by_cases hsum : summarize_article chat (resolvedContent fetch e' aid) ≠
                  failSentinel
              · rw [if_pos hsum]
                simp only [List.map_cons, List.mem_cons]
                right
                simp only [List.length_cons] at hlen
                exact ih (count + 1) (by omega) e hmem hel hsucc
              · rw [if_neg hsum]; exact ih count hlen' e hmem hel hsucc

end AIFeeder

namespace AIFeeder

/-- Feed-loop coverage: when every (well-formed) feed's entry list fits
under the cap, each eligible, successful entry's identifier appears among
the run's newly processed identifiers. -/
theorem processFeedList_covers (fetch chat : String → Option String)
    (snapshot : List String) (cap : Nat) :
    ∀ (feeds : List Feed), (∀ f ∈ feeds, f.bozo = false → f.entries.length ≤ cap) →
      ∀ f ∈ feeds, f.bozo = false →
      ∀ e ∈ f.entries, eligibleEntry snapshot e = true → entrySucceeds fetch chat e →
      ((rawArticleId e).getD "") ∈
        (processFeedList fetch chat snapshot cap feeds).map Prod.snd := by
  intro feeds
  induction feeds with
  | nil => intro _ f hf; simp at hf
  | cons f0 rest ih =>
    intro hlen f hf hbozo e he hel hsucc
    rw [processFeedList]
    rw [List.map_append, List.mem_append]
    rcases List.mem_cons.mp hf with heq | hmem
    · subst heq
      left
      rw [if_neg (by simp [hbozo])]
      exact processEntries_covers fetch chat snapshot cap f.entries 0
        (by simpa using hlen f (List.mem_cons_self f rest) hbozo) e he hel hsucc
    · right
      exact ih (fun g hg => hlen g (List.mem_cons_of_mem _ hg)) f hmem hbozo e he hel hsucc

/-- Feed-loop emptiness: when no entry of any feed is both eligible and
successful, the run produces nothing. -/
theorem processFeedList_eq_nil (fetch chat : String → Option String)
    (snapshot : List String) (cap : Nat) :
    ∀ (feeds : List Feed),
      (∀ f ∈ feeds, f.bozo = false → ∀ e ∈ f.entries,
        eligibleEntry snapshot e = true → ¬ entrySucceeds fetch chat e) →
      processFeedList fetch chat snapshot cap feeds = [] := by
  intro feeds
  induction feeds with
  | nil => intro _; rfl
  | cons f0 rest ih =>
    intro hall
    rw [processFeedList]
    rw [ih (fun g hg => hall g (List.mem_cons_of_mem _ hg))]
    rw [List.append_nil]
    by_cases hb : f0.bozo
    · rw [if_pos hb]
    · rw [if_neg hb]
      exact processEntries_eq_nil_of_none_succeeds fetch chat snapshot cap f0.entries
        (hall f0 (List.mem_cons_self f0 rest) (by simpa using hb)) 0

/-- Characterization of entry eligibility as a proposition. -/
theorem eligibleEntry_eq_true_iff (snapshot : List String) (e : Entry) :
    eligibleEntry snapshot e = true ↔
      ∃ aid, rawArticleId e = some aid ∧ aid ≠ "" ∧ aid ∉ snapshot := by
  unfold eligibleEntry
  cases h : rawArticleId e with
  | none => simp
  | some aid =>
    by_cases hemp : aid = ""
    · simp [hemp]
    · by_cases hmem : aid ∈ snapshot <;> simp [hemp, hmem]

/-- Loading a just-saved file returns exactly what was saved. -/
theorem loadProcessed_saveProcessed (ids : List String) :
    loadProcessed (saveProcessed ids) = ids := rfl

end AIFeeder

namespace Main

/-- One article step either leaves the accumulator unchanged or appends one
summary block and one processed-file line; the invalid-feed list is never
touched. -/
theorem articleStep_cases (chat : String → Option String)
    (st : List String × List String × List String) (a : Article) :
    articleStep chat st a = st ∨
      ∃ s, articleStep chat st a = (st.1 ++ [s], st.2.1 ++ [a.link], st.2.2) := by
  unfold articleStep
  split
  · split
    · right; exact ⟨_, rfl⟩
    · left; rfl
  · left; rfl

/-- Over a whole article list: the summary list is only extended, and if no
summary was added then no processed-file line was added. -/
theorem foldArticles_invariant (chat : String → Option String) :
    ∀ (articles : List Article) (st : List String × List String × List String),
      st.1 <+: (articles.foldl (articleStep chat) st).1 ∧
      ((articles.foldl (articleStep chat) st).1 = st.1 →
        (articles.foldl (articleStep chat) st).2.1 = st.2.1) := by
  intro articles
  induction articles with
  | nil => intro st; exact ⟨List.prefix_rfl, fun _ => rfl⟩
  | cons a rest ih =>
    intro st
    rw [List.foldl_cons]
    rcases articleStep_cases chat st a with hkeep | ⟨str, happ⟩
    · rw [hkeep]; exact ih st
    · rw [happ]
      rcases ih (st.1 ++ [str], st.2.1 ++ [a.link], st.2.2) with ⟨hpre, _⟩
      constructor
      · exact List.IsPrefix.trans (List.prefix_append st.1 [str]) hpre
      · intro heq
        exfalso
        have h1 := List.IsPrefix.length_le hpre
        have h2 := congrArg List.length heq
        simp only [List.length_append, List.length_singleton] at h1 h2
        omega

/-- Per feed: the summary list is only extended, and if no summary was
added then no processed-file line was added. -/
theorem processFeed_invariant (chat : String → Option String)
    (snapshot : List String) (lim : Nat) (entries : List Entry)
    (acc : List String × List String × List String) :
    acc.1 <+: (processFeed chat snapshot lim entries acc).1 ∧
    ((processFeed chat snapshot lim entries acc).1 = acc.1 →
      (processFeed chat snapshot lim entries acc).2.1 = acc.2.1) := by
  unfold processFeed
  split
  · exact foldArticles_invariant chat _ acc
  · exact ⟨List.prefix_rfl, fun _ => rfl⟩

/-- Over the whole feed list: if the final summary list equals the initial
one, the processed-file lines are unchanged. -/
theorem foldFeeds_invariant (chat : String → Option String)
    (snapshot : List String) (lim : Nat) :
    ∀ (feeds : List (List Entry)) (acc : List String × List String × List String),
      acc.1 <+:
        (feeds.foldl (fun a es => processFeed chat snapshot lim es a) acc).1 ∧
      ((feeds.foldl (fun a es => processFeed chat snapshot lim es a) acc).1 = acc.1 →
        (feeds.foldl (fun a es => processFeed chat snapshot lim es a) acc).2.1 = acc.2.1) := by
  intro feeds
  induction feeds with
  | nil => intro acc; exact ⟨List.prefix_rfl, fun _ => rfl⟩
  | cons es rest ih =>
    intro acc
    rw [List.foldl_cons]
    rcases processFeed_invariant chat snapshot lim es acc with ⟨hpre1, heq1⟩
    rcases ih (processFeed chat snapshot lim es acc) with ⟨hpre2, heq2⟩
    refine ⟨List.IsPrefix.trans hpre1 hpre2, ?_⟩
    intro heq
    have hlen1 := List.IsPrefix.length_le hpre1
    have hlen2 := List.IsPrefix.length_le hpre2
    have hlen := congrArg List.length heq
    have hfirst : (processFeed chat snapshot lim es acc).1 = acc.1 :=
      (List.IsPrefix.eq_of_length hpre1 (by omega)).symm
    have h2 := heq2 (heq.trans hfirst.symm)
    rw [h2, heq1 hfirst]

end Main

namespace AIFeeder

/-- Characterization of the strategy loop: it returns `some t` exactly when
some strategy in the list yields `t` on the page and every strategy before
it yields nothing (its finder does not match). -/
theorem runStrategies_eq_some_iff :
    ∀ (strats : List (Soup → Option String)) (s : Soup) (t : String),
      runStrategies strats s = some t ↔
        ∃ i g, strats.get? i = some g ∧ g s = some t ∧
          ∀ j, j < i → ∀ g', strats.get? j = some g' → g' s = none := by
  intro strats
  induction strats with
  | nil => intro s t; simp [runStrategies]
  | cons f rest ih =>
    intro s t
    rw [runStrategies]
    cases hf : f s with
    | some r =>
      simp only []
      constructor
      · intro h
        have hrt : r = t := by injection h
        refine ⟨0, f, List.get?_cons_zero, by rw [hf, hrt], ?_⟩
        intro j hj
        omega
      · rintro ⟨i, g, hget, hgs, hbefore⟩
        cases i with
        | zero =>
          rw [List.get?_cons_zero] at hget
          obtain rfl : f = g := by injection hget
          rw [hf] at hgs
          exact hgs
        | succ i' =>
          have h0 := hbefore 0 (Nat.succ_pos i') f List.get?_cons_zero
          rw [hf] at h0
          cases h0
    | none =>
      simp only []
      rw [ih s t]
      constructor
      · rintro ⟨i, g, hget, hgs, hbefore⟩
        refine ⟨i + 1, g, by rwa [List.get?_cons_succ], hgs, ?_⟩
        intro j hj g' hg'
        cases j with
        | zero =>
          rw [List.get?_cons_zero] at hg'
          obtain rfl : f = g' := by injection hg'
          exact hf
        | succ j' =>
          rw [List.get?_cons_succ] at hg'
          exact hbefore j' (by omega) g' hg'
      · rintro ⟨i, g, hget, hgs, hbefore⟩
        cases i with
        | zero =>
          rw [List.get?_cons_zero] at hget
          obtain rfl : f = g := by injection hget
          rw [hf] at hgs
          cases hgs
        | succ i' =>
          rw [List.get?_cons_succ] at hget
          refine ⟨i', g, hget, hgs, ?_⟩
          intro j hj g' hg'
          exact hbefore (j + 1) (by omega) g' (by rwa [List.get?_cons_succ])

end AIFeeder

namespace AIFeeder

/-- The pairs of a run are those of the feed loop over the loaded snapshot,
whether or not the commit branch was taken. -/
theorem runFeeder_pairs (fetch chat : String → Option String) (feeds : List Feed)
    (cap : Nat) (file : DedupFile) :
    (runFeeder fetch chat feeds cap file).pairs =
      processFeedList fetch chat (loadProcessed file) cap feeds := by
  unfold runFeeder
  simp only []
  split <;> rfl

/-- When the run produced no summaries, neither the save nor the report
branch runs. -/
theorem runFeeder_of_no_summaries (fetch chat : String → Option String)
    (feeds : List Feed) (cap : Nat) (file : DedupFile)
    (h : (processFeedList fetch chat (loadProcessed file) cap feeds).map Prod.fst = []) :
    (runFeeder fetch chat feeds cap file).fileAfter = file ∧
    (runFeeder fetch chat feeds cap file).reportWritten = false := by
  unfold runFeeder
  rw [if_neg (by simpa using h)]
  exact ⟨rfl, rfl⟩

/-- When the run produced summaries, the union of the snapshot and the new
identifiers is saved and the report is written. -/
theorem runFeeder_of_summaries (fetch chat : String → Option String)
    (feeds : List Feed) (cap : Nat) (file : DedupFile)
    (h : (processFeedList fetch chat (loadProcessed file) cap feeds).map Prod.fst ≠ []) :
    (runFeeder fetch chat feeds cap file).fileAfter =
      saveProcessed (loadProcessed file ++
        ((processFeedList fetch chat (loadProcessed file) cap feeds).map
          Prod.snd).filter (· ∉ loadProcessed file)) ∧
    (runFeeder fetch chat feeds cap file).reportWritten = true := by
  unfold runFeeder
  rw [if_pos (by simpa using h)]
  exact ⟨rfl, rfl⟩

end AIFeeder

/-- C1: no double-report.  Every (summary, identifier) pair produced by an
`AIFeeder.py` run has an identifier absent from the dedup snapshot loaded at
run start, and every article validated by `main.py`'s
`fetch_valid_articles` has a link absent from the processed snapshot:
entries whose identifier is already in the snapshot are filtered out before
resolution and summarization, so no SummaryResult of the run matches a
pre-run identifier. -/
theorem claim_C1_no_double_report :
    (∀ (fetch chat : String → Option String) (feeds : List AIFeeder.Feed)
       (cap : Nat) (file : AIFeeder.DedupFile) (p : AIFeeder.SummaryDict × String),
       p ∈ (AIFeeder.runFeeder fetch chat feeds cap file).pairs →
       p.2 ∉ AIFeeder.loadProcessed file)
  ∧ (∀ (entries : List Main.Entry) (lim : Nat) (processed : List String)
       (arts : List Main.Article) (a : Main.Article),
       Main.fetchValidArticles entries lim processed = some arts → a ∈ arts →
       a.link ∉ processed) := by
  constructor
  · intro fetch chat feeds cap file p hp
    rw [AIFeeder.runFeeder_pairs] at hp
    exact AIFeeder.processFeedList_snd_not_mem fetch chat
      (AIFeeder.loadProcessed file) cap feeds p hp
  · intro entries lim processed arts a hfetch ha
    unfold Main.fetchValidArticles at hfetch
    simp only [] at hfetch
    split at hfetch
    · injection hfetch with h
      subst h
      rcases List.mem_filterMap.mp ha with ⟨e, _, he⟩
      split at he
      · rename_i hcond
        split at he
        · injection he with h
          rw [← h]
          exact hcond.2
        · cases he
      · cases he
    · cases hfetch

/-- Witness for C1 at a concrete run: one new entry with identifier `"a"`
against a snapshot `["x"]`, and one valid article with link `"u2"` against a
processed set `["u1"]`. -/
theorem claim_C1_no_double_report_witness :
    ((⟨⟨"t", "l", "S", "t"⟩, "a"⟩ : AIFeeder.SummaryDict × String) ∈
        (AIFeeder.runFeeder (fun _ => none) (fun _ => some "S")
          [⟨false, [⟨some "a", some "l", none, none, none, some "t"⟩]⟩] 1
          ⟨true, some ["x"], true⟩).pairs ∧
      ("a" : String) ∉ AIFeeder.loadProcessed ⟨true, some ["x"], true⟩)
  ∧ (Main.fetchValidArticles [⟨some "u2", some "t2", some "c2", none, none⟩] 1 ["u1"] =
        some [⟨"t2", "u2", "c2"⟩] ∧
      ("u2" : String) ∉ ["u1"]) := by
  refine ⟨⟨by decide, ?_⟩, by decide, ?_⟩
  · exact claim_C1_no_double_report.1 (fun _ => none) (fun _ => some "S")
      [⟨false, [⟨some "a", some "l", none, none, none, some "t"⟩]⟩] 1
      ⟨true, some ["x"], true⟩ ⟨⟨"t", "l", "S", "t"⟩, "a"⟩ (by decide)
  · exact claim_C1_no_double_report.2 [⟨some "u2", some "t2", some "c2", none, none⟩]
      1 ["u1"] [⟨"t2", "u2", "c2"⟩] ⟨"t2", "u2", "c2"⟩ (by decide) (by decide)

/-- C5: fail-open dedup load.  `_load_processed` is a total function (it
never raises); it returns the empty set when the file does not exist, and
returns the empty set on any read or parse failure of an existing file. -/
theorem claim_C5_fail_open_load :
    (∀ f : AIFeeder.DedupFile, f.present = false → AIFeeder.loadProcessed f = [])
  ∧ (∀ (f : AIFeeder.DedupFile) (msg : String),
       AIFeeder.readProcessedFile f = Except.error msg →
       AIFeeder.loadProcessed f = []) := by
  constructor
  · intro f hf
    unfold AIFeeder.loadProcessed
    rw [hf]
    rfl
  · intro f msg hf
    unfold AIFeeder.loadProcessed
    split
    · rw [hf]
    · rfl

/-- Witness for C5: a missing file and a corrupted (unparseable) file both
load as the empty set. -/
theorem claim_C5_fail_open_load_witness :
    AIFeeder.loadProcessed ⟨false, some ["a"], true⟩ = [] ∧
    AIFeeder.readProcessedFile ⟨true, none, true⟩ = Except.error "parse failure" ∧
    AIFeeder.loadProcessed ⟨true, none, true⟩ = [] := by
  refine ⟨claim_C5_fail_open_load.1 ⟨false, some ["a"], true⟩ rfl, rfl, ?_⟩
  exact claim_C5_fail_open_load.2 ⟨true, none, true⟩ "parse failure" rfl

/-- C10: in-band failure sentinel.  `summarize_article` returns the string
"Summary generation failed." exactly when the backend errors, returns an
empty response, or returns that very string — so a legitimate summary equal
to the sentinel is indistinguishable from failure, and an entry whose
backend response is exactly the sentinel is skipped by the entry loop:
no summary is emitted, its identifier is not recorded, and the cap counter
is not advanced. -/
theorem claim_C10_sentinel_in_band :
    (∀ (chat : String → Option String) (content : String),
       AIFeeder.summarize_article chat content = AIFeeder.failSentinel ↔
         (chat (AIFeeder.summarizePrompt content) = none ∨
          chat (AIFeeder.summarizePrompt content) = some "" ∨
          chat (AIFeeder.summarizePrompt content) = some AIFeeder.failSentinel))
  ∧ (∀ (fetch chat : String → Option String) (snapshot : List String) (cap : Nat)
       (e : AIFeeder.Entry) (rest : List AIFeeder.Entry) (count : Nat),
       AIFeeder.summarize_article chat
           (AIFeeder.resolvedContent fetch e ((AIFeeder.rawArticleId e).getD "")) =
         AIFeeder.failSentinel →
       AIFeeder.processEntries fetch chat snapshot cap (e :: rest) count =
         AIFeeder.processEntries fetch chat snapshot cap rest count) := by
  constructor
  · intro chat content
    unfold AIFeeder.summarize_article
    cases h : chat (AIFeeder.summarizePrompt content) with
    | none => simp
    | some s =>
      by_cases hs : s = ""
      · subst hs
        simp
      · simp [hs]
  · intro fetch chat snapshot cap e rest count hsum
    rw [AIFeeder.processEntries_cons]
    by_cases hcap : count ≥ cap
    · rw [if_pos hcap]
      cases rest with
      | nil => rfl
      | cons r rs => rw [AIFeeder.processEntries_cons, if_pos hcap]
    · rw [if_neg hcap]
      cases haid : AIFeeder.rawArticleId e with
      | none => rfl
      | some aid =>
        simp only []
        by_cases hemp : aid = ""
        · rw [if_pos hemp]
        · by_cases hmem : aid ∈ snapshot
          · rw [if_neg hemp, if_pos hmem]
          · rw [if_neg hemp, if_neg hmem]
            have haidD : (AIFeeder.rawArticleId e).getD "" = aid := by rw [haid]; rfl
            rw [haidD] at hsum
            by_cases hcont : AIFeeder.resolvedContent fetch e aid = ""
            · rw [if_pos hcont]
            · rw [if_neg hcont, if_neg (not_not.mpr hsum)]

/-- Witness for C10: with a backend that replies exactly with the sentinel
string, a fresh entry is skipped — the loop output equals the output on the
remaining (empty) list. -/
theorem claim_C10_sentinel_in_band_witness :
    AIFeeder.summarize_article (fun _ => some AIFeeder.failSentinel)
        (AIFeeder.resolvedContent (fun _ => none)
          ⟨some "a", some "l", none, none, none, some "t"⟩
          ((AIFeeder.rawArticleId ⟨some "a", some "l", none, none, none, some "t"⟩).getD "")) =
      AIFeeder.failSentinel ∧
    AIFeeder.processEntries (fun _ => none) (fun _ => some AIFeeder.failSentinel) [] 5
        [⟨some "a", some "l", none, none, none, some "t"⟩] 0 =
      AIFeeder.processEntries (fun _ => none) (fun _ => some AIFeeder.failSentinel) [] 5
        [] 0 :=
  ⟨by decide,
   claim_C10_sentinel_in_band.2 (fun _ => none) (fun _ => some AIFeeder.failSentinel)
     [] 5 ⟨some "a", some "l", none, none, none, some "t"⟩ [] 0 (by decide)⟩

/-- C2 counterexample: in `main.py`, a run in which every entry fails
summarization still writes the report files — `main` writes the markdown
and html artifacts unconditionally, so the claim that no report artifact is
written on an all-failure run is false for this variant. -/
theorem claim_C2_counterexample :
    (Main.mainRun ⟨ProbeOutcome.ok, true, ProbeOutcome.ok⟩ (fun _ => none)
        [[⟨some "u", some "t", some "c", none, none⟩]] 1 none).summaries = [] ∧
    (Main.mainRun ⟨ProbeOutcome.ok, true, ProbeOutcome.ok⟩ (fun _ => none)
        [[⟨some "u", some "t", some "c", none, none⟩]] 1 none).reportWritten = true := by
  decide

/-- C2 amended: an all-failure run leaves the dedup state untouched in both
variants, and in `AIFeeder.py` it also writes no report; in `main.py` the
report files are written unconditionally (see the counterexample), so only
the dedup part holds there. -/
theorem claim_C2_no_trace_amended :
    (∀ (fetch chat : String → Option String) (feeds : List AIFeeder.Feed)
       (cap : Nat) (file : AIFeeder.DedupFile),
       (AIFeeder.runFeeder fetch chat feeds cap file).summaries = [] →
       (AIFeeder.runFeeder fetch chat feeds cap file).fileAfter = file ∧
       (AIFeeder.runFeeder fetch chat feeds cap file).reportWritten = false)
  ∧ (∀ (b : Backend) (chat : String → Option String) (feeds : List (List Main.Entry))
       (lim : Nat) (pf : Option (List String)),
       (Main.mainRun b chat feeds lim pf).summaries = [] →
       (Main.mainRun b chat feeds lim pf).processedLines = pf.getD []) := by
  constructor
  · intro fetch chat feeds cap file h
    apply AIFeeder.runFeeder_of_no_summaries
    have := h
    rw [AIFeeder.RunResult.summaries, AIFeeder.runFeeder_pairs] at this
    exact this
  · intro b chat feeds lim pf h
    unfold Main.mainRun at h ⊢
    by_cases hb : (Main.ensureModelAvailable b).success = false
    · rw [if_pos hb]
    · rw [if_neg hb] at h ⊢
      simp only [] at h ⊢
      have hinv := Main.foldFeeds_invariant chat
        (Main.loadProcessedArticles pf lim) lim feeds ([], pf.getD [], [])
      exact hinv.2 h

/-- Witness for C2 at a concrete input: a backend that always errors yields
no summaries; the `AIFeeder.py` run leaves the (missing) dedup file as it
was and writes no report, and the `main.py` run leaves the processed-lines
file unchanged. -/
theorem claim_C2_no_trace_amended_witness :
    ((AIFeeder.runFeeder (fun _ => none) (fun _ => none)
        [⟨false, [⟨some "a", some "l", none, none, none, some "t"⟩]⟩] 1
        ⟨false, none, true⟩).fileAfter = ⟨false, none, true⟩ ∧
     (AIFeeder.runFeeder (fun _ => none) (fun _ => none)
        [⟨false, [⟨some "a", some "l", none, none, none, some "t"⟩]⟩] 1
        ⟨false, none, true⟩).reportWritten = false)
  ∧ (Main.mainRun ⟨ProbeOutcome.ok, true, ProbeOutcome.ok⟩ (fun _ => none)
        [[⟨some "u", some "t", some "c", none, none⟩]] 1 (some ["old"])).processedLines =
      (some ["old"]).getD [] :=
  ⟨claim_C2_no_trace_amended.1 (fun _ => none) (fun _ => none)
     [⟨false, [⟨some "a", some "l", none, none, none, some "t"⟩]⟩] 1
     ⟨false, none, true⟩ (by decide),
   claim_C2_no_trace_amended.2 ⟨ProbeOutcome.ok, true, ProbeOutcome.ok⟩ (fun _ => none)
     [[⟨some "u", some "t", some "c", none, none⟩]] 1 (some ["old"]) (by decide)⟩

/-- C4 counterexample: when the initial load of an existing, well-formed
dedup file fails (a read error), the snapshot is empty and the commit
overwrites the file with only the new identifiers; the previously stored
identifier `"a"` is removed, so the persisted set does not only grow. -/
theorem claim_C4_counterexample :
    ("a" : String) ∈ AIFeeder.storedIds ⟨true, some ["a"], false⟩ ∧
    ("a" : String) ∉ AIFeeder.storedIds
      (AIFeeder.runFeeder (fun _ => none) (fun _ => some "S")
        [⟨false, [⟨some "b", some "l", none, none, none, some "t"⟩]⟩] 1
        ⟨true, some ["a"], false⟩).fileAfter := by
  decide

/-- C4 amended: provided the run-start load was faithful (the file was
missing, or its read and parse succeeded), the persisted identifier set
after commit is a superset of the set before, an identifier is stored after
the run exactly when it was stored before or was committed this run, and
every committed identifier is new.  When the load fails on an existing
well-formed file, the commit overwrites it and stored identifiers are lost
(see the counterexample). -/
theorem claim_C4_dedup_growth_amended (fetch chat : String → Option String)
    (feeds : List AIFeeder.Feed) (cap : Nat) (file : AIFeeder.DedupFile)
    (h : AIFeeder.loadProcessed file = AIFeeder.storedIds file) :
    (∀ i ∈ AIFeeder.storedIds file,
       i ∈ AIFeeder.storedIds (AIFeeder.runFeeder fetch chat feeds cap file).fileAfter)
  ∧ (∀ i, i ∈ AIFeeder.storedIds (AIFeeder.runFeeder fetch chat feeds cap file).fileAfter ↔
       (i ∈ AIFeeder.storedIds file ∨
        i ∈ (AIFeeder.runFeeder fetch chat feeds cap file).committedIds))
  ∧ (∀ i ∈ (AIFeeder.runFeeder fetch chat feeds cap file).committedIds,
       i ∉ AIFeeder.storedIds file) := by
  have hcomm : (AIFeeder.runFeeder fetch chat feeds cap file).committedIds =
      (AIFeeder.processFeedList fetch chat (AIFeeder.loadProcessed file) cap feeds).map
        Prod.snd := by
    rw [AIFeeder.RunResult.committedIds, AIFeeder.runFeeder_pairs]
  have hnotmem : ∀ i ∈ (AIFeeder.runFeeder fetch chat feeds cap file).committedIds,
      i ∉ AIFeeder.storedIds file := by
    intro i hi
    rw [hcomm] at hi
    rcases List.mem_map.mp hi with ⟨p, hp, hpi⟩
    rw [← h, ← hpi]
    exact AIFeeder.processFeedList_snd_not_mem fetch chat
      (AIFeeder.loadProcessed file) cap feeds p hp
  by_cases hs : (AIFeeder.processFeedList fetch chat (AIFeeder.loadProcessed file) cap
      feeds).map Prod.fst = []
  · have hfile := (AIFeeder.runFeeder_of_no_summaries fetch chat feeds cap file hs).1
    have hpairs : AIFeeder.processFeedList fetch chat (AIFeeder.loadProcessed file) cap
        feeds = [] := List.map_eq_nil_iff.mp hs
    have hcnil : (AIFeeder.runFeeder fetch chat feeds cap file).committedIds = [] := by
      rw [hcomm, hpairs]; rfl
    refine ⟨fun i hi => by rwa [hfile], fun i => ?_, hnotmem⟩
    rw [hfile, hcnil]
    simp
  · have hfile := (AIFeeder.runFeeder_of_summaries fetch chat feeds cap file hs).1
    refine ⟨?_, ?_, hnotmem⟩
    · intro i hi
      rw [hfile]
      show i ∈ AIFeeder.loadProcessed file ++ _
      exact List.mem_append_left _ (by rwa [h])
    · intro i
      rw [hfile, hcomm]
      show i ∈ AIFeeder.loadProcessed file ++ _ ↔ _
      rw [List.mem_append, List.mem_filter, h]
      constructor
      · rintro (hi | ⟨hi, _⟩)
        · exact Or.inl hi
        · exact Or.inr hi
      · rintro (hi | hi)
        · exact Or.inl hi
        · by_cases hin : i ∈ AIFeeder.storedIds file
          · exact Or.inl hin
          · exact Or.inr ⟨hi, by simpa [AIFeeder.loadProcessed, h] using hin⟩

/-- Witness for C4: a healthy load of `["x"]` followed by a run committing
`"b"`; the stored identifier `"x"` survives the commit. -/
theorem claim_C4_dedup_growth_amended_witness :
    AIFeeder.loadProcessed ⟨true, some ["x"], true⟩ =
      AIFeeder.storedIds ⟨true, some ["x"], true⟩ ∧
    ("x" : String) ∈ AIFeeder.storedIds
      (AIFeeder.runFeeder (fun _ => none) (fun _ => some "S")
        [⟨false, [⟨some "b", some "l", none, none, none, some "t"⟩]⟩] 1
        ⟨true, some ["x"], true⟩).fileAfter :=
  ⟨by decide,
   (claim_C4_dedup_growth_amended (fun _ => none) (fun _ => some "S")
     [⟨false, [⟨some "b", some "l", none, none, none, some "t"⟩]⟩] 1
     ⟨true, some ["x"], true⟩ (by decide)).1 "x" (by decide)⟩

/-- C7 counterexample: on a backend whose probe reports 404, whose pull
succeeds, and whose post-pull probe would report error 500,
`main.py`'s `ensure_model_available` performs no re-probe (one probe total)
and reports success — whereas the claim requires exactly one re-probe whose
failure is raised; `AIFeeder.py`'s check indeed re-probes and fails. -/
theorem claim_C7_counterexample :
    Main.ensureModelAvailable ⟨ProbeOutcome.respErr 404, true, ProbeOutcome.respErr 500⟩ =
      ⟨true, 1, 1⟩ ∧
    AIFeeder.checkModelAccessible ⟨ProbeOutcome.respErr 404, true, ProbeOutcome.respErr 500⟩ =
      ⟨false, 2, 1⟩ := by
  decide

/-- C7 amended: in `AIFeeder.py`, a pull happens exactly when the probe
reports 404; after a 404 and a successful pull exactly one re-probe runs and
the check succeeds only if it succeeds; a failed pull or a non-404 failure
raises with no re-probe.  In `main.py` the probe-before-any-feed-work part
holds (a failed check aborts `main` before any feed or file is touched), but
after a successful pull no re-probe is performed (see counterexample). -/
theorem claim_C7_model_readiness_amended :
    (∀ b : Backend,
       ((AIFeeder.checkModelAccessible b).pulls = 1 ↔
          b.probe1 = ProbeOutcome.respErr 404)
     ∧ (b.probe1 = ProbeOutcome.respErr 404 → b.pullOk = true →
          (AIFeeder.checkModelAccessible b).probes = 2 ∧
          ((AIFeeder.checkModelAccessible b).success = true ↔
            b.probe2 = ProbeOutcome.ok))
     ∧ (b.probe1 = ProbeOutcome.respErr 404 → b.pullOk = false →
          (AIFeeder.checkModelAccessible b).success = false ∧
          (AIFeeder.checkModelAccessible b).probes = 1)
     ∧ (b.probe1 ≠ ProbeOutcome.respErr 404 →
          (AIFeeder.checkModelAccessible b).pulls = 0 ∧
          ((AIFeeder.checkModelAccessible b).success = true ↔
            b.probe1 = ProbeOutcome.ok)))
  ∧ (∀ (b : Backend) (chat : String → Option String) (feeds : List (List Main.Entry))
       (lim : Nat) (pf : Option (List String)),
       (Main.ensureModelAvailable b).success = false →
       Main.mainRun b chat feeds lim pf =
         ⟨true, [], pf.getD [], false, false⟩) := by
  constructor
  · intro b
    obtain ⟨p1, pk, p2⟩ := b
    cases p1 with
    | ok => cases p2 <;> simp [AIFeeder.checkModelAccessible]
    | exc => cases p2 <;> simp [AIFeeder.checkModelAccessible]
    | respErr st =>
      by_cases h404 : st = 404
      · subst h404
        cases pk <;> cases p2 <;> simp [AIFeeder.checkModelAccessible]
      · cases pk <;> cases p2 <;> simp [AIFeeder.checkModelAccessible, h404]
  · intro b chat feeds lim pf h
    unfold Main.mainRun
    rw [if_pos h]

/-- Witness for C7: a 404-then-pull-then-healthy-re-probe backend makes two
probe calls in `AIFeeder.py`, and an unreachable backend aborts `main.py`
before any feed work. -/
theorem claim_C7_model_readiness_amended_witness :
    (AIFeeder.checkModelAccessible
        ⟨ProbeOutcome.respErr 404, true, ProbeOutcome.ok⟩).probes = 2 ∧
    Main.mainRun ⟨ProbeOutcome.exc, true, ProbeOutcome.ok⟩ (fun _ => none)
        [[⟨some "u", some "t", some "c", none, none⟩]] 1 none =
      ⟨true, [], [], false, false⟩ :=
  ⟨((claim_C7_model_readiness_amended.1
      ⟨ProbeOutcome.respErr 404, true, ProbeOutcome.ok⟩).2.1 rfl rfl).1,
   claim_C7_model_readiness_amended.2 ⟨ProbeOutcome.exc, true, ProbeOutcome.ok⟩
     (fun _ => none) [[⟨some "u", some "t", some "c", none, none⟩]] 1 none (by decide)⟩

/-- C6 counterexample: a page with an empty dedicated abstract element and a
non-empty meta description.  The code returns the empty text of the first
matching finder instead of skipping it in favour of the meta description,
so a strategy whose match is empty after trimming is NOT skipped. -/
theorem claim_C6_counterexample :
    AIFeeder.fetchArticleAbstract (some ⟨some ⟨""⟩, none, none, none, none, none,
        some ⟨some "Real abstract"⟩, none⟩) = some "" ∧
    AIFeeder.extractAbstractSpecSkipEmpty ⟨some ⟨""⟩, none, none, none, none, none,
        some ⟨some "Real abstract"⟩, none⟩ = some "Real abstract" ∧
    AIFeeder.fetchArticleAbstract (some ⟨some ⟨""⟩, none, none, none, none, none,
        some ⟨some "Real abstract"⟩, none⟩) ≠
      AIFeeder.extractAbstractSpecSkipEmpty ⟨some ⟨""⟩, none, none, none, none, none,
        some ⟨some "Real abstract"⟩, none⟩ := by
  decide

/-- C6 amended: the eight extraction strategies run in exactly the listed
priority order and the result is the extracted text of the FIRST strategy
whose finder matches at all — even when that text is empty after trimming
(the empty string is returned rather than trying later strategies; the
caller's falsiness check then falls back to feed content). -/
theorem claim_C6_extraction_order_amended :
    ∀ (page : AIFeeder.Soup) (t : String),
      AIFeeder.fetchArticleAbstract (some page) = some t ↔
        ∃ i g, AIFeeder.abstractSources.get? i = some g ∧ g page = some t ∧
          ∀ j, j < i → ∀ g', AIFeeder.abstractSources.get? j = some g' →
            g' page = none := by
  intro page t
  exact AIFeeder.runStrategies_eq_some_iff AIFeeder.abstractSources page t

/-- Witness for C6 at strategy index 0: a page whose dedicated abstract
element has text `"A"` extracts `"A"`. -/
theorem claim_C6_extraction_order_amended_witness :
    AIFeeder.fetchArticleAbstract
        (some ⟨some ⟨"A"⟩, none, none, none, none, none, none, none⟩) = some "A" :=
  (claim_C6_extraction_order_amended
      ⟨some ⟨"A"⟩, none, none, none, none, none, none, none⟩ "A").mpr
    ⟨0, fun s => s.abstractTag.map AIFeeder.Tag.textStripped, rfl, rfl,
      fun j hj => absurd hj (Nat.not_lt_zero j)⟩

/-- C3 counterexample: with `article_limit = 1`, a feed whose first raw
entry is already in the processed set and whose second entry is new:
`main.py`'s `fetch_valid_articles` slices the raw list to one entry BEFORE
filtering and returns nothing, while the claimed first-N-after-filtering
selection would process the second entry. -/
theorem claim_C3_counterexample :
    Main.fetchValidArticles
        [⟨some "u1", some "t1", some "c1", none, none⟩,
         ⟨some "u2", some "t2", some "c2", none, none⟩] 1 ["u1"] = none ∧
    Main.fetchValidArticlesSpecFilterFirst
        [⟨some "u1", some "t1", some "c1", none, none⟩,
         ⟨some "u2", some "t2", some "c2", none, none⟩] 1 ["u1"] =
      [⟨"t2", "u2", "c2"⟩] := by
  decide

/-- C3 amended: in both variants at most `articles_per_feed` entries are
processed per feed.  In `AIFeeder.py` the cap is applied after filtering:
when every eligible entry resolves and summarizes successfully, the entries
processed are exactly the first `cap` eligible entries in feed order.  In
`main.py` the slice is applied BEFORE filtering (see the counterexample),
so the processed entries are the eligible ones among the first `cap` raw
entries. -/
theorem claim_C3_cap_amended :
    (∀ (fetch chat : String → Option String) (snapshot : List String) (cap : Nat)
       (entries : List AIFeeder.Entry),
       (AIFeeder.processEntries fetch chat snapshot cap entries 0).length ≤ cap)
  ∧ (∀ (entries : List Main.Entry) (lim : Nat) (processed : List String)
       (arts : List Main.Article),
       Main.fetchValidArticles entries lim processed = some arts → arts.length ≤ lim)
  ∧ (∀ (fetch chat : String → Option String) (snapshot : List String) (cap : Nat)
       (entries : List AIFeeder.Entry),
       (∀ e ∈ entries, AIFeeder.eligibleEntry snapshot e = true →
          AIFeeder.entrySucceeds fetch chat e) →
       AIFeeder.processEntries fetch chat snapshot cap entries 0 =
         ((entries.filter (AIFeeder.eligibleEntry snapshot)).take cap).map
           (AIFeeder.entryResult fetch chat)) := by
  refine ⟨?_, ?_, ?_⟩
  · intro fetch chat snapshot cap entries
    have h := AIFeeder.processEntries_length_le fetch chat snapshot cap entries 0
    omega
  · intro entries lim processed arts hfetch
    unfold Main.fetchValidArticles at hfetch
    simp only [] at hfetch
    split at hfetch
    · injection hfetch with h
      subst h
      exact le_trans (List.length_filterMap_le _ _) (List.length_take_le _ _)
    · cases hfetch
  · intro fetch chat snapshot cap entries hall
    have h := AIFeeder.processEntries_eq_filter_take fetch chat snapshot cap entries
      hall 0
    rwa [Nat.sub_zero] at h

/-- Witness for C3 at concrete inputs: a two-entry feed with cap 1, all
entries succeeding, processes exactly the first eligible entry. -/
theorem claim_C3_cap_amended_witness :
    (AIFeeder.processEntries (fun _ => none) (fun _ => some "S") ["a"] 1
        [⟨some "a", some "l1", none, none, none, some "t"⟩,
         ⟨some "b", some "l2", none, none, none, some "t"⟩] 0).length ≤ 1 ∧
    ([⟨"t2", "u2", "c2"⟩] : List Main.Article).length ≤ 1 ∧
    AIFeeder.processEntries (fun _ => none) (fun _ => some "S") ["a"] 1
        [⟨some "a", some "l1", none, none, none, some "t"⟩,
         ⟨some "b", some "l2", none, none, none, some "t"⟩] 0 =
      (([⟨some "a", some "l1", none, none, none, some "t"⟩,
         ⟨some "b", some "l2", none, none, none, some "t"⟩].filter
          (AIFeeder.eligibleEntry ["a"])).take 1).map
        (AIFeeder.entryResult (fun _ => none) (fun _ => some "S")) :=
  ⟨claim_C3_cap_amended.1 (fun _ => none) (fun _ => some "S") ["a"] 1
     [⟨some "a", some "l1", none, none, none, some "t"⟩,
      ⟨some "b", some "l2", none, none, none, some "t"⟩],
   claim_C3_cap_amended.2.1 [⟨some "u2", some "t2", some "c2", none, none⟩] 1 ["u1"]
     [⟨"t2", "u2", "c2"⟩] (by decide),
   claim_C3_cap_amended.2.2 (fun _ => none) (fun _ => some "S") ["a"] 1
     [⟨some "a", some "l1", none, none, none, some "t"⟩,
      ⟨some "b", some "l2", none, none, none, some "t"⟩] (by decide)⟩

/-- C8 counterexample: one feed with two fresh, summarizable entries and
`articles_per_feed = 1`.  The first run commits only the first entry (the
cap truncates the feed), so the second run over identical feed content
processes the second entry: the second-run result set is NOT empty and the
dedup file changes again. -/
theorem claim_C8_counterexample :
    (AIFeeder.runFeeder (fun _ => none) (fun _ => some "S")
        [⟨false, [⟨some "a", some "l1", none, none, none, some "t"⟩,
                  ⟨some "b", some "l2", none, none, none, some "t"⟩]⟩] 1
        (AIFeeder.runFeeder (fun _ => none) (fun _ => some "S")
          [⟨false, [⟨some "a", some "l1", none, none, none, some "t"⟩,
                    ⟨some "b", some "l2", none, none, none, some "t"⟩]⟩] 1
          ⟨false, none, true⟩).fileAfter).pairs ≠ [] ∧
    (AIFeeder.runFeeder (fun _ => none) (fun _ => some "S")
        [⟨false, [⟨some "a", some "l1", none, none, none, some "t"⟩,
                  ⟨some "b", some "l2", none, none, none, some "t"⟩]⟩] 1
        (AIFeeder.runFeeder (fun _ => none) (fun _ => some "S")
          [⟨false, [⟨some "a", some "l1", none, none, none, some "t"⟩,
                    ⟨some "b", some "l2", none, none, none, some "t"⟩]⟩] 1
          ⟨false, none, true⟩).fileAfter).fileAfter ≠
      (AIFeeder.runFeeder (fun _ => none) (fun _ => some "S")
        [⟨false, [⟨some "a", some "l1", none, none, none, some "t"⟩,
                  ⟨some "b", some "l2", none, none, none, some "t"⟩]⟩] 1
        ⟨false, none, true⟩).fileAfter := by
  decide

/-- C8 amended: with deterministic resolution and summarization oracles,
running the pipeline twice over the same feed content yields an empty
second-run result set and an unchanged dedup file PROVIDED no feed was
truncated by the per-feed cap in the first run (each well-formed feed has at
most `articles_per_feed` entries); a cap-truncated first run leaves eligible
entries uncommitted and the second run processes them (see the
counterexample). -/
theorem claim_C8_idempotence_amended (fetch chat : String → Option String)
    (feeds : List AIFeeder.Feed) (cap : Nat) (file : AIFeeder.DedupFile)
    (hlen : ∀ f ∈ feeds, f.bozo = false → f.entries.length ≤ cap) :
    (AIFeeder.runFeeder fetch chat feeds cap
        (AIFeeder.runFeeder fetch chat feeds cap file).fileAfter).pairs = [] ∧
    (AIFeeder.runFeeder fetch chat feeds cap
        (AIFeeder.runFeeder fetch chat feeds cap file).fileAfter).fileAfter =
      (AIFeeder.runFeeder fetch chat feeds cap file).fileAfter := by
  by_cases hs : (AIFeeder.processFeedList fetch chat (AIFeeder.loadProcessed file) cap
      feeds).map Prod.fst = []
  · have hfile := (AIFeeder.runFeeder_of_no_summaries fetch chat feeds cap file hs).1
    have hpairs1 : AIFeeder.processFeedList fetch chat (AIFeeder.loadProcessed file) cap
        feeds = [] := List.map_eq_nil_iff.mp hs
    rw [hfile]
    constructor
    · rw [AIFeeder.runFeeder_pairs]
      exact hpairs1
    · exact hfile
  · have hfile := (AIFeeder.runFeeder_of_summaries fetch chat feeds cap file hs).1
    have hsnap2 : AIFeeder.loadProcessed
        (AIFeeder.runFeeder fetch chat feeds cap file).fileAfter =
        AIFeeder.loadProcessed file ++
          ((AIFeeder.processFeedList fetch chat (AIFeeder.loadProcessed file) cap
            feeds).map Prod.snd).filter (· ∉ AIFeeder.loadProcessed file) := by
      rw [hfile, AIFeeder.loadProcessed_saveProcessed]
    have hall2 : ∀ f ∈ feeds, f.bozo = false → ∀ e ∈ f.entries,
        AIFeeder.eligibleEntry
          (AIFeeder.loadProcessed file ++
            ((AIFeeder.processFeedList fetch chat (AIFeeder.loadProcessed file) cap
              feeds).map Prod.snd).filter (· ∉ AIFeeder.loadProcessed file)) e = true →
        ¬ AIFeeder.entrySucceeds fetch chat e := by
      intro f hf hb e he hel hsucc
      rcases (AIFeeder.eligibleEntry_eq_true_iff _ e).mp hel with ⟨aid, haid, hemp, hnot2⟩
      have hnot1 : aid ∉ AIFeeder.loadProcessed file :=
        fun hmem => hnot2 (List.mem_append_left _ hmem)
      have hel1 : AIFeeder.eligibleEntry (AIFeeder.loadProcessed file) e = true :=
        (AIFeeder.eligibleEntry_eq_true_iff _ e).mpr ⟨aid, haid, hemp, hnot1⟩
      have hcov := AIFeeder.processFeedList_covers fetch chat
        (AIFeeder.loadProcessed file) cap feeds hlen f hf hb e he hel1 hsucc
      rw [haid] at hcov
      apply hnot2
      apply List.mem_append_right
      exact List.mem_filter.mpr ⟨hcov, by simpa using hnot1⟩
    have hpairs2 : AIFeeder.processFeedList fetch chat
        (AIFeeder.loadProcessed (AIFeeder.runFeeder fetch chat feeds cap file).fileAfter)
        cap feeds = [] := by
      rw [hsnap2]
      exact AIFeeder.processFeedList_eq_nil fetch chat _ cap feeds hall2
    constructor
    · rw [AIFeeder.runFeeder_pairs]
      exact hpairs2
    · exact (AIFeeder.runFeeder_of_no_summaries fetch chat feeds cap
        (AIFeeder.runFeeder fetch chat feeds cap file).fileAfter
        (by rw [hpairs2]; rfl)).1

/-- Witness for C8: a single one-entry feed with cap 1 (not truncated): the
second run yields nothing and the dedup file is stable. -/
theorem claim_C8_idempotence_amended_witness :
    (AIFeeder.runFeeder (fun _ => none) (fun _ => some "S")
        [⟨false, [⟨some "a", some "l1", none, none, none, some "t"⟩]⟩] 1
        (AIFeeder.runFeeder (fun _ => none) (fun _ => some "S")
          [⟨false, [⟨some "a", some "l1", none, none, none, some "t"⟩]⟩] 1
          ⟨false, none, true⟩).fileAfter).pairs = [] ∧
    (AIFeeder.runFeeder (fun _ => none) (fun _ => some "S")
        [⟨false, [⟨some "a", some "l1", none, none, none, some "t"⟩]⟩] 1
        (AIFeeder.runFeeder (fun _ => none) (fun _ => some "S")
          [⟨false, [⟨some "a", some "l1", none, none, none, some "t"⟩]⟩] 1
          ⟨false, none, true⟩).fileAfter).fileAfter =
      (AIFeeder.runFeeder (fun _ => none) (fun _ => some "S")
        [⟨false, [⟨some "a", some "l1", none, none, none, some "t"⟩]⟩] 1
        ⟨false, none, true⟩).fileAfter :=
  claim_C8_idempotence_amended (fun _ => none) (fun _ => some "S")
    [⟨false, [⟨some "a", some "l1", none, none, none, some "t"⟩]⟩] 1
    ⟨false, none, true⟩ (by decide)
